import Mathlib

/-!
Verification of the service-worker script `sw.js` of the agri repository.

The script registers two event handlers:
  - an install handler: `caches.open(CACHE_NAME).then(cache => cache.addAll(urlsToCache))`
  - a fetch handler: `caches.match(event.request).then(response => response || fetch(event.request))`

We embed it shallowly:
  - a cache bucket is an association list from exact URL strings to responses;
  - the network is a function `String → Except Unit Response` (`Except.ok` is a
    resolved fetch, including non-2xx responses, which are ordinary `Response`
    values with a status field; `Except.error ()` is a rejected fetch, i.e. a
    network failure);
  - `cache.addAll` is a batch operation: every listed URL is fetched and the
    results are stored only when all fetches resolve; a single rejection rejects
    the whole batch and stores nothing (WHATWG batch semantics, which the spec
    describes as all-or-nothing);
  - possible storage failures (bucket open during install, lookup during fetch
    interception) are modelled by explicit success flags, since the script
    neither catches nor handles them;
  - the fetch handler returns, besides the response promise outcome, the cache
    contents after the handler ran and the number of network fetches it
    performed, so that pass-through, frame and counting claims are statable.

In JavaScript, `caches.match` resolves with `undefined` when no entry matches
and with a `Response` object (always truthy) otherwise, so the expression
`response || fetch(event.request)` delegates to the network exactly on a
missed lookup; the embedding renders this with `Option`.
-/

deriving instance DecidableEq for Except

/-- A stored or fetched response record: status, headers and body bytes. -/
structure Response where
  status : Nat
  headers : List (String × String)
  body : List Nat
deriving DecidableEq, Repr

/-- A cache bucket: keys are exact request URL strings, values are responses. -/
abbrev Cache := List (String × Response)

/-- `const CACHE_NAME = 'agrimarket-v1';` -/
def CACHE_NAME : String := "agrimarket-v1"

/-- `const urlsToCache = ['/', '/static/css/*', '/static/media/*', '/images/*'];` -/
def urlsToCache : List String :=
  ["/", "/static/css/*", "/static/media/*", "/images/*"]

/-- Exact-match lookup in a cache bucket, the semantics of `caches.match` on a
single named bucket: first entry whose key equals the request URL, `none` when
no entry matches. -/
def lookupCache : Cache → String → Option Response
  | [], _ => none
  | p :: rest, u => if u = p.1 then some p.2 else lookupCache rest u

/-- Store a list of fetched entries into a bucket, one `cache.put` per entry;
a later entry for the same key shadows an earlier one. -/
def putAll (c : Cache) : List (String × Response) → Cache
  | [] => c
  | p :: rest => putAll ((p.1, p.2) :: c) rest

/-- Fetch every URL of a list against a network; the batch resolves with the
list of fetched entries only when every single fetch resolves, and rejects as
a whole when any fetch rejects. -/
def fetchAll (net : String → Except Unit Response) :
    List String → Except Unit (List (String × Response))
  | [] => Except.ok []
  | u :: us =>
    match net u with
    | Except.error e => Except.error e
    | Except.ok r =>
      match fetchAll net us with
      | Except.error e => Except.error e
      | Except.ok rest => Except.ok ((u, r) :: rest)

/-- Outcome of the install handler: the promise passed to `event.waitUntil`
(resolved or rejected) and the bucket contents afterwards. -/
structure InstallOutcome where
  result : Except Unit Unit
  cacheAfter : Cache
deriving DecidableEq, Repr

/-- The install event listener:
`caches.open(CACHE_NAME).then(cache => cache.addAll(urlsToCache))`.
`openOk` tells whether opening the named bucket succeeds; on success the
handler runs `addAll` over `urlsToCache`: all entries are stored when every
fetch resolves, and the install rejects with the bucket unchanged when the
open fails or any fetch rejects. -/
def install (openOk : Bool) (c : Cache) (net : String → Except Unit Response) :
    InstallOutcome :=
  match openOk with
  | false => ⟨Except.error (), c⟩
  | true =>
    match fetchAll net urlsToCache with
    | Except.error e => ⟨Except.error e, c⟩
    | Except.ok entries => ⟨Except.ok (), putAll c entries⟩

/-- The world a single fetch interception runs in: current bucket contents,
whether the storage read performed by `caches.match` succeeds, and the
network behavior. -/
structure World where
  cache : Cache
  lookupOk : Bool
  net : String → Except Unit Response

/-- Outcome of one fetch interception: the promise handed to
`event.respondWith` (a resolved response or a rejection), the bucket contents
after the handler ran, and how many network fetches the handler performed. -/
structure FetchOutcome where
  response : Except Unit Response
  cacheAfter : Cache
  netCalls : Nat
deriving DecidableEq, Repr

/-- The fetch event listener:
`event.respondWith(caches.match(event.request).then(response => response || fetch(event.request)))`.
When the lookup itself rejects, the respondWith promise rejects and no network
fetch happens; when the lookup resolves with a match, that response is served
with no network fetch; when the lookup resolves with no match, exactly one
network fetch is performed and its result, whatever it is, is the outcome. -/
def handleFetch (w : World) (req : String) : FetchOutcome :=
  match w.lookupOk with
  | false => ⟨Except.error (), w.cache, 0⟩
  | true =>
    match lookupCache w.cache req with
    | some r => ⟨Except.ok r, w.cache, 0⟩
    | none => ⟨w.net req, w.cache, 1⟩

/-- A sample resolved response used in concrete witnesses. -/
def respA : Response := ⟨200, [("content-type", "text/html")], [60, 104, 62]⟩

/-- A sample error response (still a resolved fetch) used in witnesses. -/
def respServerError : Response := ⟨500, [], [101, 114, 114]⟩

/-- A network on which every fetch resolves. -/
def netAllOk : String → Except Unit Response :=
  fun u => Except.ok ⟨200, [], [u.length]⟩

/-- The entries `fetchAll netAllOk urlsToCache` produces. -/
def entriesAllOk : List (String × Response) :=
  urlsToCache.map (fun u => (u, ⟨200, [], [u.length]⟩))

/-- A network on which only the site root resolves and every other fetch,
the three wildcard literals included, rejects. -/
def netRootOnly : String → Except Unit Response :=
  fun u => if u = "/" then Except.ok respA else Except.error ()

/- ### Helper lemmas about the batch fetch and the bucket -/

theorem fetchAll_ok_mem (net : String → Except Unit Response) :
    ∀ (urls : List String) (entries : List (String × Response)),
      fetchAll net urls = Except.ok entries → ∀ p ∈ entries, net p.1 = Except.ok p.2 := by
  intro urls
  induction urls with
  | nil =>
    intro entries h p hp
    simp [fetchAll] at h
    subst h
    cases hp
  | cons u us ih =>
    intro entries h p hp
    unfold fetchAll at h
    cases hnu : net u with
    | error e => rw [hnu] at h; cases h
    | ok r =>
      rw [hnu] at h
      cases hrest : fetchAll net us with
      | error e => rw [hrest] at h; cases h
      | ok rest =>
        rw [hrest] at h
        cases h
        rcases List.mem_cons.mp hp with h1 | h1
        · subst h1; exact hnu
        · exact ih rest hrest p h1

theorem fetchAll_ok_keys (net : String → Except Unit Response) :
    ∀ (urls : List String) (entries : List (String × Response)),
      fetchAll net urls = Except.ok entries → entries.map Prod.fst = urls := by
  intro urls
  induction urls with
  | nil =>
    intro entries h
    simp [fetchAll] at h
    subst h
    rfl
  | cons u us ih =>
    intro entries h
    unfold fetchAll at h
    cases hnu : net u with
    | error e => rw [hnu] at h; cases h
    | ok r =>
      rw [hnu] at h
      cases hrest : fetchAll net us with
      | error e => rw [hrest] at h; cases h
      | ok rest =>
        rw [hrest] at h
        cases h
        simp [List.map_cons, ih rest hrest]

theorem fetchAll_mem_error (net : String → Except Unit Response) :
    ∀ (urls : List String) (u : String), u ∈ urls → net u = Except.error () →
      fetchAll net urls = Except.error () := by
  intro urls
  induction urls with
  | nil => intro u hu; cases hu
  | cons v vs ih =>
    intro u hu hn
    rcases List.mem_cons.mp hu with h | h
    · subst h
      unfold fetchAll
      rw [hn]
    · unfold fetchAll
      cases hnv : net v with
      | error e => cases e; rfl
      | ok r => rw [ih u h hn]

theorem lookupCache_cons (k : String) (v : Response) (c : Cache) (u : String) :
    lookupCache ((k, v) :: c) u = if u = k then some v else lookupCache c u := rfl

theorem lookup_putAll_not_mem :
    ∀ (es : List (String × Response)) (c : Cache) (u : String), u ∉ es.map Prod.fst →
      lookupCache (putAll c es) u = lookupCache c u := by
  intro es
  induction es with
  | nil => intro c u _; rfl
  | cons p rest ih =>
    intro c u hu
    simp only [List.map_cons, List.mem_cons, not_or] at hu
    unfold putAll
    rw [ih ((p.1, p.2) :: c) u hu.2, lookupCache_cons, if_neg hu.1]

theorem lookup_putAll_mem :
    ∀ (es : List (String × Response)) (c : Cache) (u : String) (r : Response),
      (∀ p ∈ es, p.1 = u → p.2 = r) → u ∈ es.map Prod.fst →
      lookupCache (putAll c es) u = some r := by
  intro es
  induction es with
  | nil => intro c u r _ hu; cases hu
  | cons p rest ih =>
    intro c u r hr hu
    by_cases hmem : u ∈ rest.map Prod.fst
    · exact ih ((p.1, p.2) :: c) u r (fun q hq hq1 => hr q (List.mem_cons_of_mem _ hq) hq1) hmem
    · have hup : u = p.1 := by
        simp only [List.map_cons, List.mem_cons] at hu
        rcases hu with h | h
        · exact h
        · exact absurd h hmem
      unfold putAll
      rw [lookup_putAll_not_mem rest ((p.1, p.2) :: c) u hmem, lookupCache_cons,
        if_pos hup, hr p (List.mem_cons_self p rest) hup.symm]

theorem handleFetch_cacheAfter_eq (w : World) (req : String) :
    (handleFetch w req).cacheAfter = w.cache := by
  unfold handleFetch
  cases w.lookupOk with
  | false => rfl
  | true =>
    cases lookupCache w.cache req with
    | none => rfl
    | some r => rfl

/- ### Claim theorems -/

/-- C1: for every intercepted request (with the cache lookup itself
succeeding), the fetch interceptor resolves by looking up the named cache for
an entry matching the request: when a cached response is found it resolves
with that cached response, and when none is found it resolves with whatever a
single normal network fetch for the request returns. -/
theorem respondWith_resolution (w : World) (req : String) (h : w.lookupOk = true) :
    (handleFetch w req).response =
      (match lookupCache w.cache req with
        | some r => Except.ok r
        | none => w.net req) := by
  unfold handleFetch
  rw [h]
  cases lookupCache w.cache req with
  | some r => rfl
  | none => rfl

/-- Witness for C1 at a concrete world holding one cached entry. -/
theorem respondWith_resolution_w :
    (⟨[("/", respA)], true, netRootOnly⟩ : World).lookupOk = true ∧
    (handleFetch ⟨[("/", respA)], true, netRootOnly⟩ "/").response =
      (match lookupCache [("/", respA)] "/" with
        | some r => Except.ok r
        | none => netRootOnly "/") :=
  ⟨rfl, respondWith_resolution ⟨[("/", respA)], true, netRootOnly⟩ "/" rfl⟩

/-- C4: for every intercepted request with no matching cache entry (and a
succeeding lookup), the interceptor performs exactly one network fetch and
passes its result through unmodified: the whole outcome is the network result
as the response, the unchanged cache and one network call. -/
theorem fetch_miss_single_network_passthrough (w : World) (req : String)
    (h : w.lookupOk = true) (hm : lookupCache w.cache req = none) :
    handleFetch w req = ⟨w.net req, w.cache, 1⟩ := by
  unfold handleFetch
  rw [h, hm]

/-- Witness for C4: a request absent from the cache is answered by the
network result itself, with exactly one network call. -/
theorem fetch_miss_single_network_passthrough_w :
    (⟨[("/", respA)], true, netAllOk⟩ : World).lookupOk = true ∧
    lookupCache [("/", respA)] "/about" = none ∧
    handleFetch ⟨[("/", respA)], true, netAllOk⟩ "/about" =
      ⟨netAllOk "/about", [("/", respA)], 1⟩ :=
  ⟨rfl, by decide,
    fetch_miss_single_network_passthrough ⟨[("/", respA)], true, netAllOk⟩ "/about"
      rfl (by decide)⟩

/-- C5: when the cache lookup itself fails, the interceptor rejects and the
request is left unserved: no fallback network fetch is performed. -/
theorem fetch_lookup_failure_unserved (w : World) (req : String)
    (h : w.lookupOk = false) :
    handleFetch w req = ⟨Except.error (), w.cache, 0⟩ := by
  unfold handleFetch
  rw [h]

/-- Witness for C5 at a concrete world whose storage read fails. -/
theorem fetch_lookup_failure_unserved_w :
    (⟨[("/", respA)], false, netAllOk⟩ : World).lookupOk = false ∧
    handleFetch ⟨[("/", respA)], false, netAllOk⟩ "/" =
      ⟨Except.error (), [("/", respA)], 0⟩ :=
  ⟨rfl, fetch_lookup_failure_unserved ⟨[("/", respA)], false, netAllOk⟩ "/" rfl⟩

/-- C8: handling an intercepted fetch never modifies the cache bucket: the
cache contents after the interceptor ran equal the contents before, whether
the response came from cache, from the network, or the lookup failed. -/
theorem fetch_preserves_cache (w : World) (req : String) :
    (handleFetch w req).cacheAfter = w.cache := by
  unfold handleFetch
  cases w.lookupOk with
  | false => rfl
  | true =>
    cases lookupCache w.cache req with
    | none => rfl
    | some r => rfl

/-- C9: the interceptor falls back to the network exactly when the lookup
resolves with no match; whenever the lookup resolves with any response at
all, an error response included, that response is served and the network is
never consulted. -/
theorem fallback_iff_cache_miss (w : World) (req : String) (h : w.lookupOk = true) :
    ((handleFetch w req).netCalls = 1 ↔ lookupCache w.cache req = none) ∧
    (∀ r, lookupCache w.cache req = some r →
      (handleFetch w req).response = Except.ok r ∧ (handleFetch w req).netCalls = 0) := by
  unfold handleFetch
  rw [h]
  cases hm : lookupCache w.cache req with
  | none => simp
  | some r => simp

/-- Witness for C9 at a world whose cache stores a 500-status response: that
stored error response is served and the network is not consulted. -/
theorem fallback_iff_cache_miss_w :
    (⟨[("/down", respServerError)], true, netAllOk⟩ : World).lookupOk = true ∧
    lookupCache [("/down", respServerError)] "/down" = some respServerError ∧
    (handleFetch ⟨[("/down", respServerError)], true, netAllOk⟩ "/down").response =
      Except.ok respServerError ∧
    (handleFetch ⟨[("/down", respServerError)], true, netAllOk⟩ "/down").netCalls = 0 :=
  ⟨rfl, by decide,
    (fallback_iff_cache_miss ⟨[("/down", respServerError)], true, netAllOk⟩ "/down" rfl).2
      respServerError (by decide)⟩

/-- C10: the interceptor is deterministic: two runs with the same cache
contents, the same lookup success, and the same network behavior at the
intercepted request produce the same outcome; nothing else, in particular no
other request and no cross-request state, influences the result. -/
theorem fetch_deterministic (w1 w2 : World) (req : String)
    (hc : w1.cache = w2.cache) (hl : w1.lookupOk = w2.lookupOk)
    (hn : w1.net req = w2.net req) :
    handleFetch w1 req = handleFetch w2 req := by
  unfold handleFetch
  rw [hc, hl, hn]

/-- Witness for C10 at two concrete worlds whose networks differ on another
request but agree on the intercepted one. -/
theorem fetch_deterministic_w :
    (⟨[("/", respA)], true, netAllOk⟩ : World).cache =
      (⟨[("/", respA)], true, fun u => if u = "/x" then Except.error () else netAllOk u⟩ : World).cache ∧
    (⟨[("/", respA)], true, netAllOk⟩ : World).lookupOk =
      (⟨[("/", respA)], true, fun u => if u = "/x" then Except.error () else netAllOk u⟩ : World).lookupOk ∧
    (⟨[("/", respA)], true, netAllOk⟩ : World).net "/about" =
      (⟨[("/", respA)], true, fun u => if u = "/x" then Except.error () else netAllOk u⟩ : World).net "/about" ∧
    handleFetch ⟨[("/", respA)], true, netAllOk⟩ "/about" =
      handleFetch ⟨[("/", respA)], true, fun u => if u = "/x" then Except.error () else netAllOk u⟩ "/about" :=
  ⟨rfl, rfl, by decide,
    fetch_deterministic _ _ "/about" rfl rfl (by decide)⟩

/-- C2: during install, if opening the named bucket fails or any single fetch
among the static resource list fails, the whole batch fails and the install
rejects; no partial success: the bucket is left exactly as it was, so in
particular no identifier after the failing one in the list is cached. -/
theorem install_all_or_nothing (openOk : Bool) (c : Cache)
    (net : String → Except Unit Response)
    (h : openOk = false ∨ ∃ u, u ∈ urlsToCache ∧ net u = Except.error ()) :
    (install openOk c net).result = Except.error () ∧
    (install openOk c net).cacheAfter = c := by
  rcases h with h | ⟨u, hu, hn⟩
  · subst h
    exact ⟨rfl, rfl⟩
  · cases openOk with
    | false => exact ⟨rfl, rfl⟩
    | true =>
      unfold install
      rw [fetchAll_mem_error net urlsToCache u hu hn]
      exact ⟨rfl, rfl⟩

/-- Witness for C2: on a network where only the site root resolves, the
install rejects and a pre-existing bucket is unchanged. -/
theorem install_all_or_nothing_w :
    (true = false ∨ ∃ u, u ∈ urlsToCache ∧ netRootOnly u = Except.error ()) ∧
    (install true [("/old", respA)] netRootOnly).result = Except.error () ∧
    (install true [("/old", respA)] netRootOnly).cacheAfter = [("/old", respA)] :=
  ⟨Or.inr ⟨"/static/css/*", by decide, by decide⟩,
    (install_all_or_nothing true [("/old", respA)] netRootOnly
      (Or.inr ⟨"/static/css/*", by decide, by decide⟩)).1,
    (install_all_or_nothing true [("/old", respA)] netRootOnly
      (Or.inr ⟨"/static/css/*", by decide, by decide⟩)).2⟩

/-- C3: for every identifier of the static resource list, after a successful
install it resolves on the network, the bucket contains an entry keyed by that
identifier holding the fetched response, and a subsequent intercepted request
for it is served from the cache with zero network fetches. -/
theorem fetch_serves_cached_after_install (openOk : Bool) (c : Cache)
    (net : String → Except Unit Response) (u : String)
    (hu : u ∈ urlsToCache) (hok : (install openOk c net).result = Except.ok ()) :
    ∃ r, net u = Except.ok r ∧
      lookupCache (install openOk c net).cacheAfter u = some r ∧
      handleFetch ⟨(install openOk c net).cacheAfter, true, net⟩ u =
        ⟨Except.ok r, (install openOk c net).cacheAfter, 0⟩ := by
  cases openOk with
  | false => cases hok
  | true =>
    cases hfa : fetchAll net urlsToCache with
    | error e =>
      unfold install at hok
      rw [hfa] at hok
      cases hok
    | ok entries =>
      have hcache : (install true c net).cacheAfter = putAll c entries := by
        unfold install
        rw [hfa]
      have hkeys := fetchAll_ok_keys net urlsToCache entries hfa
      have hmem := fetchAll_ok_mem net urlsToCache entries hfa
      have hu2 : u ∈ entries.map Prod.fst := by rw [hkeys]; exact hu
      obtain ⟨p, hp, hpu⟩ := List.mem_map.mp hu2
      have hvals : ∀ q ∈ entries, q.1 = u → q.2 = p.2 := by
        intro q hq hq1
        have h1 := hmem q hq
        have h2 := hmem p hp
        rw [hq1] at h1
        rw [hpu] at h2
        exact Except.ok.inj (h1.symm.trans h2)
      have hlook : lookupCache (putAll c entries) u = some p.2 :=
        lookup_putAll_mem entries c u p.2 hvals hu2
      refine ⟨p.2, ?_, ?_, ?_⟩
      · rw [← hpu]
        exact hmem p hp
      · rw [hcache]
        exact hlook
      · rw [hcache]
        simp [handleFetch, hlook]

/-- Witness for C3 at a network where every fetch resolves: the site root is
cached by the install and then served from cache. -/
theorem fetch_serves_cached_after_install_w :
    ("/" ∈ urlsToCache) ∧
    ((install true [] netAllOk).result = Except.ok ()) ∧
    (∃ r, netAllOk "/" = Except.ok r ∧
      lookupCache (install true [] netAllOk).cacheAfter "/" = some r ∧
      handleFetch ⟨(install true [] netAllOk).cacheAfter, true, netAllOk⟩ "/" =
        ⟨Except.ok r, (install true [] netAllOk).cacheAfter, 0⟩) :=
  ⟨by decide, by decide,
    fetch_serves_cached_after_install true [] netAllOk "/" (by decide) (by decide)⟩

/-- C6: the static resource list consists of exactly the four literal path
strings, and the wildcard entries are handed to the batch fetch as exact
literal strings: the stored keys are exactly those literals, nothing is
expanded, and a concrete path that a glob reading would cover is not matched
by a lookup after a successful install over an empty bucket. -/
theorem urlsToCache_literal_no_glob :
    urlsToCache = ["/", "/static/css/*", "/static/media/*", "/images/*"] ∧
    (∀ (net : String → Except Unit Response) (entries : List (String × Response)),
      fetchAll net urlsToCache = Except.ok entries → entries.map Prod.fst = urlsToCache) ∧
    (∀ net : String → Except Unit Response,
      (install true [] net).result = Except.ok () →
      lookupCache (install true [] net).cacheAfter "/static/css/main.css" = none) := by
  refine ⟨rfl, ?_, ?_⟩
  · intro net entries h
    exact fetchAll_ok_keys net urlsToCache entries h
  · intro net hok
    cases hfa : fetchAll net urlsToCache with
    | error e =>
      unfold install at hok
      rw [hfa] at hok
      cases hok
    | ok entries =>
      have hcache : (install true [] net).cacheAfter = putAll [] entries := by
        unfold install
        rw [hfa]
      have hnotmem : "/static/css/main.css" ∉ entries.map Prod.fst := by
        rw [fetchAll_ok_keys net urlsToCache entries hfa]
        decide
      rw [hcache, lookup_putAll_not_mem entries [] "/static/css/main.css" hnotmem]
      rfl

/-- Witness for C6: on a network where every fetch resolves, the stored keys
are exactly the four literals and a concrete css file path is not matched. -/
theorem urlsToCache_literal_no_glob_w :
    (fetchAll netAllOk urlsToCache = Except.ok entriesAllOk) ∧
    entriesAllOk.map Prod.fst = urlsToCache ∧
    ((install true [] netAllOk).result = Except.ok ()) ∧
    lookupCache (install true [] netAllOk).cacheAfter "/static/css/main.css" = none :=
  ⟨by decide, urlsToCache_literal_no_glob.2.1 netAllOk entriesAllOk (by decide),
    by decide, urlsToCache_literal_no_glob.2.2 netAllOk (by decide)⟩

/-- C7: cache lookups are idempotent: for a stored identifier, a first
intercepted request and a repeated one on the resulting state each serve the
same cached response and neither performs a network fetch. -/
theorem cached_lookup_idempotent (w : World) (req : String) (r : Response)
    (h : w.lookupOk = true) (hr : lookupCache w.cache req = some r) :
    (handleFetch w req).response = Except.ok r ∧
    (handleFetch w req).netCalls = 0 ∧
    (handleFetch ⟨(handleFetch w req).cacheAfter, w.lookupOk, w.net⟩ req).response =
      Except.ok r ∧
    (handleFetch ⟨(handleFetch w req).cacheAfter, w.lookupOk, w.net⟩ req).netCalls = 0 := by
  have hc : (handleFetch w req).cacheAfter = w.cache := handleFetch_cacheAfter_eq w req
  rw [hc, h]
  have h1 : handleFetch w req = ⟨Except.ok r, w.cache, 0⟩ := by
    unfold handleFetch
    rw [h, hr]
  have h2 : handleFetch ⟨w.cache, true, w.net⟩ req = ⟨Except.ok r, w.cache, 0⟩ := by
    simp [handleFetch, hr]
  rw [h1, h2]
  exact ⟨rfl, rfl, rfl, rfl⟩

/-- Witness for C7 at a concrete world holding one cached entry, requested
twice in a row. -/
theorem cached_lookup_idempotent_w :
    (⟨[("/", respA)], true, netRootOnly⟩ : World).lookupOk = true ∧
    lookupCache [("/", respA)] "/" = some respA ∧
    (handleFetch ⟨[("/", respA)], true, netRootOnly⟩ "/").response = Except.ok respA ∧
    (handleFetch ⟨[("/", respA)], true, netRootOnly⟩ "/").netCalls = 0 ∧
    (handleFetch ⟨(handleFetch ⟨[("/", respA)], true, netRootOnly⟩ "/").cacheAfter,
        (⟨[("/", respA)], true, netRootOnly⟩ : World).lookupOk,
        (⟨[("/", respA)], true, netRootOnly⟩ : World).net⟩ "/").response =
      Except.ok respA ∧
    (handleFetch ⟨(handleFetch ⟨[("/", respA)], true, netRootOnly⟩ "/").cacheAfter,
        (⟨[("/", respA)], true, netRootOnly⟩ : World).lookupOk,
        (⟨[("/", respA)], true, netRootOnly⟩ : World).net⟩ "/").netCalls = 0 :=
  ⟨rfl, by decide,
    (cached_lookup_idempotent ⟨[("/", respA)], true, netRootOnly⟩ "/" respA rfl (by decide)).1,
    (cached_lookup_idempotent ⟨[("/", respA)], true, netRootOnly⟩ "/" respA rfl (by decide)).2.1,
    (cached_lookup_idempotent ⟨[("/", respA)], true, netRootOnly⟩ "/" respA rfl (by decide)).2.2.1,
    (cached_lookup_idempotent ⟨[("/", respA)], true, netRootOnly⟩ "/" respA rfl (by decide)).2.2.2⟩
